import Mathlib

/-!
Verification of the stackabletech/common configuration-resolution crate
(`src/config/src/lib.rs` and `src/config/src/ripgrep_config.rs`).

The crate resolves a program's effective configuration from command-line
tokens and an optional rc-style config file named by an environment
variable.  This file gives a shallow embedding of the data model, the file
token loader, the token merger and the resolution engine, and proves the
specified properties about them.

Modelling conventions:
* `OsString` argument tokens are modelled as `String`; raw file bytes are
  modelled as `List Nat` (one `Nat` per byte).
* Process environment lookup (`std::env::var_os`) is an explicit function
  `String → Option String`; the filesystem (`File::open` + read, split into
  byte lines with terminators as `bstr::for_byte_line_with_terminator`
  does) is an explicit function `String → Except String (List (List Nat))`
  whose `error` case is the OS error text of a failed open; the
  platform-specific `bstr::to_os_str` decoding of one line is an explicit
  function `List Nat → Except String String`.
* Diagnostics that the Rust code emits with `println!` are returned as an
  explicit list of strings.
* The external argument-matching engine (the `clap` crate) is out of
  scope of the repository and is modelled from the spec, see `matchTokens`
  below.
-/

deriving instance DecidableEq for Except

namespace StackableConfig

/-- Embeds `ConfigOption` (src/config/src/lib.rs lines 69-90): one
individual config option a program can interpret. -/
structure ConfigOption where
  name : String
  default : Option String
  required : Bool
  takes_argument : Bool
  help : String
  documentation : String
  list : Bool
deriving DecidableEq, Repr

/-- Embeds `Configuration` (src/config/src/lib.rs lines 55-66): the
application properties plus the set of options.  The Rust `HashSet` is
modelled as a list; set-ness (no duplicate names) is stated as a `Nodup`
hypothesis where a theorem needs it. -/
structure Configuration where
  name : String
  version : String
  about : String
  options : List ConfigOption
deriving DecidableEq, Repr

/-- The tri-state resolved value of one option, as described by the doc
comment of `Configurable::parse_values` (src/config/src/lib.rs lines
42-47): `Absent` = the `None` entry, `PresentFlag` = `Some` of an empty
vector, `Values` = `Some` of a non-empty vector. -/
inductive ResolvedValue where
  | Absent : ResolvedValue
  | PresentFlag : ResolvedValue
  | Values : List String → ResolvedValue
deriving DecidableEq, Repr

/-- View an entry of the `HashMap<ConfigOption, Option<Vec<String>>>` that
`ConfigBuilder::build` hands to `parse_values` as a `ResolvedValue`. -/
def toResolved : Option (List String) → ResolvedValue
  | none => ResolvedValue.Absent
  | some [] => ResolvedValue.PresentFlag
  | some (v :: vs) => ResolvedValue.Values (v :: vs)

/-! ## File token loader (src/config/src/ripgrep_config.rs) -/

/-- One recorded per-line parse error of the config file: the 1-based line
number and the cause, as pushed by `parse_reader`
(src/config/src/ripgrep_config.rs line 100). -/
structure LineError where
  lineNumber : Nat
  cause : String
deriving DecidableEq, Repr

/-- A whitespace byte, as removed from both line boundaries by
`line.trim()` in `parse_reader` (ASCII whitespace). -/
def isWsByte (b : Nat) : Bool :=
  b == 32 || b == 9 || b == 10 || b == 11 || b == 12 || b == 13

/-- Embeds `line.trim()`: remove whitespace at both boundaries of a byte
line. -/
def trimBytes (l : List Nat) : List Nat :=
  ((l.dropWhile isWsByte).reverse.dropWhile isWsByte).reverse

/-- Embeds the loop body and accumulation of `parse_reader`
(src/config/src/ripgrep_config.rs lines 86-104), processing the byte lines
of the file starting at line number `n`.  Per line: trim, skip if empty or
starting with `#` (byte 35), otherwise decode (`bstr::to_os_str`, the
parameter `decode`) into one token, or record a per-line error and
continue. -/
def parseLines (decode : List Nat → Except String String) :
    Nat → List (List Nat) → List String × List LineError
  | _, [] => ([], [])
  | n, l :: rest =>
    let res := parseLines decode (n + 1) rest
    let line := trimBytes l
    if line.isEmpty || line.head? == some 35 then
      res
    else
      match decode line with
      | Except.ok s => (s :: res.1, res.2)
      | Except.error err => (res.1, { lineNumber := n, cause := err } :: res.2)

/-- Embeds `parse_reader` (src/config/src/ripgrep_config.rs lines 84-106):
`line_number` starts at 0 and is incremented before each line, so the
first line is line 1. -/
def parse_reader (decode : List Nat → Except String String)
    (lines : List (List Nat)) : List String × List LineError :=
  parseLines decode 1 lines

/-- Embeds `parse` (src/config/src/ripgrep_config.rs lines 65-71): open the
file at `path` (the `fs` parameter; its `error` case is the OS error of a
failed `File::open`) and run `parse_reader` on its lines; a failed open
becomes a hard error `"{path}: {err}"`. -/
def parse (fs : String → Except String (List (List Nat)))
    (decode : List Nat → Except String String) (path : String) :
    Except String (List String × List LineError) :=
  match fs path with
  | Except.ok content => Except.ok (parse_reader decode content)
  | Except.error err => Except.error (path ++ ": " ++ err)

/-- Renders one recorded line error the way `parse_reader` formats it
(`format!("\x7b\x7d: \x7b\x7d", line_number, err)`). -/
def lineErrMsg (e : LineError) : String :=
  toString e.lineNumber ++ ": " ++ e.cause

/-- Embeds `args` (src/config/src/ripgrep_config.rs lines 27-55): look up
the environment variable; if unset or empty return no tokens silently;
otherwise parse the file at that path.  A failed open yields no tokens
plus the printed error; a successful parse yields the tokens plus the
printed per-line errors and the printed "arguments loaded" notice.  The
first component is the returned token vector, the second the `println!`
output. -/
def args (env : String → Option String)
    (fs : String → Except String (List (List Nat)))
    (decode : List Nat → Except String String)
    (environment : String) : List String × List String :=
  match env environment with
  | none => ([], [])
  | some config_path =>
    if config_path.isEmpty then ([], [])
    else
      match parse fs decode config_path with
      | Except.error err => ([], [err])
      | Except.ok (as, errs) =>
        (as,
          errs.map (fun e => config_path ++ ":" ++ lineErrMsg e) ++
            [config_path ++ ": arguments loaded from config file: " ++ toString as])

/-! ## The clap matcher configuration built by `create_matcher` -/

/-- One matchable slot of the external engine, carrying exactly the
properties `ConfigBuilder::create_matcher` sets on a `clap::Arg`
(src/config/src/lib.rs lines 195-218). -/
structure Arg where
  name : String
  long : String
  value_name : String
  help : String
  takes_value : Bool
  required : Bool
  default_value : Option String
  multiple : Bool
  overrides : Bool
deriving DecidableEq, Repr

/-- The external engine's configuration built by
`ConfigBuilder::create_matcher` (src/config/src/lib.rs lines 189-221). -/
structure App where
  name : String
  version : String
  about : String
  args : List Arg
deriving DecidableEq, Repr

/-- The `Arg` built for one option by the loop body of `create_matcher`
(src/config/src/lib.rs lines 195-218): long flag, value name and help from
the option; a default value only when the option takes an argument (a
default for a switch is ignored, lines 203-212); `multiple` for `list`
options, otherwise self-override so that the last occurrence wins (lines
214-218). -/
def mkArg (option : ConfigOption) : Arg :=
  { name := option.name
    long := option.name
    value_name := option.name
    help := option.help
    takes_value := option.takes_argument
    required := option.required
    default_value :=
      match option.default with
      | some default_value =>
        if option.takes_argument then some default_value else none
      | none => none
    multiple := option.list
    overrides := !option.list }

/-- Embeds `ConfigBuilder::create_matcher` (src/config/src/lib.rs lines
189-221): the app carries the application name, version and about text and
one `Arg` per `ConfigOption` of the configuration — nothing else; in
particular no "no-config" option is added by the library itself. -/
def create_matcher (config : Configuration) : App :=
  { name := config.name
    version := config.version
    about := config.about
    args := config.options.map mkArg }

/-! ## The external matching engine, modelled from the spec

Modelled from the spec: the `clap` argument-matching engine is an external
collaborator of the repository (spec section 1: capability
`parse(schema, tokens) -> matches | error`; glossary "Matching engine").
Its behaviour is modelled from the spec's description: the first token is
the program-name placeholder and never matched (spec section 6); a
`--name` token selects the schema slot of that name, a value-taking slot
consumes the following token as its value and a missing value is a parse
error, an unknown flag is a parse error, a required-but-absent option is a
parse error (spec section 7, MatchError taxonomy); for non-repeatable
options the last occurrence in token order wins, for repeatable options
all occurrences are retained in order (spec sections 3 and 4.3); a
default value substitutes for a truly absent value-taking option (spec
section 9, last design note).
-/

/-- A structured parse error of the matching engine: the three causes of
the spec's MatchError taxonomy (spec section 7). -/
inductive MatchError where
  | unknownArgument : String → MatchError
  | missingValue : String → MatchError
  | missingRequired : String → MatchError
deriving DecidableEq, Repr

/-- The long flag `--name` for an option name. -/
def dashName (nm : String) : String := "--" ++ nm

/-- Strip the leading `--` of a long-flag token, if present. -/
def stripDashes (tok : String) : Option String :=
  match tok.data with
  | '-' :: '-' :: rest => some (String.mk rest)
  | _ => none

/-- Find the `Arg` whose long flag is `nm`. -/
def findArgLong (as : List Arg) (nm : String) : Option Arg :=
  as.find? (fun a => a.long == nm)

/-- Modelled from the spec: one pass of the external matching engine over
the token list (program name already removed), producing the ordered list
of occurrences — `(name, some value)` for a value-taking option,
`(name, none)` for a present flag — or the first structured parse error. -/
def matchTokens (as : List Arg) :
    List String → Except MatchError (List (String × Option String))
  | [] => Except.ok []
  | t :: rest =>
    match stripDashes t with
    | none => Except.error (MatchError.unknownArgument t)
    | some nm =>
      match findArgLong as nm with
      | none => Except.error (MatchError.unknownArgument t)
      | some a =>
        if a.takes_value then
          match rest with
          | [] => Except.error (MatchError.missingValue nm)
          | v :: rest2 =>
            (matchTokens as rest2).map (fun occs => (nm, some v) :: occs)
        else
          (matchTokens as rest).map (fun occs => (nm, none) :: occs)

/-- The occurrences of the option named `nm` in an occurrence list, in
order. -/
def occurrencesOf (occs : List (String × Option String)) (nm : String) :
    List (String × Option String) :=
  occs.filter (fun p => p.1 == nm)

/-- The values carried by the occurrences of the option named `nm`, in
order. -/
def valsOf (occs : List (String × Option String)) (nm : String) : List String :=
  (occurrencesOf occs nm).filterMap Prod.snd

/-- Modelled from the spec: the required check of the external engine — a
required slot that never occurred and has no default value is a parse
error (spec section 7; a default value satisfies the requirement). -/
def checkRequired (as : List Arg) (occs : List (String × Option String)) :
    Except MatchError Unit :=
  match as.find? (fun a =>
      a.required && (occurrencesOf occs a.long).isEmpty && a.default_value.isNone) with
  | some a => Except.error (MatchError.missingRequired a.long)
  | none => Except.ok ()

/-- Modelled from the spec: the engine's `get_matches_from` — ignore the
first token (the program name, spec section 6), match the rest, then check
required options.  The result is the ordered occurrence list. -/
def get_matches_from (app : App) (tokens : List String) :
    Except MatchError (List (String × Option String)) :=
  match matchTokens app.args tokens.tail with
  | Except.error e => Except.error e
  | Except.ok occs =>
    match checkRequired app.args occs with
    | Except.error e => Except.error e
    | Except.ok _ => Except.ok occs

/-- Modelled from the spec: the engine's `is_present` query on a match
result — true when the slot occurred at least once or has a default value;
a name with no slot is never present. -/
def is_present (app : App) (occs : List (String × Option String))
    (nm : String) : Bool :=
  !(occurrencesOf occs nm).isEmpty ||
    (match findArgLong app.args nm with
     | some a => a.default_value.isSome
     | none => false)

/-- Modelled from the spec: the values the engine reports for one slot from
a match result.  Never occurred: the default value for a value-taking slot
(as a one-element list) or nothing.  Occurred: all values in order for a
`multiple` slot, only the last value for a self-overriding slot
(override-on-conflict, spec glossary), the empty list for a flag. -/
def argValues (a : Arg) (occs : List (String × Option String)) :
    Option (List String) :=
  let mine := occurrencesOf occs a.long
  if mine.isEmpty then
    if a.takes_value then a.default_value.map (fun d => [d]) else none
  else if a.takes_value then
    if a.multiple then some (mine.filterMap Prod.snd)
    else some ((mine.filterMap Prod.snd).getLast?.toList)
  else some []

/-- Modelled from the spec: the engine's `values_of` query by option
name. -/
def values_of (app : App) (occs : List (String × Option String))
    (nm : String) : Option (List String) :=
  match findArgLong app.args nm with
  | none => none
  | some a => argValues a occs

/-! ## Token merger and resolution engine (src/config/src/lib.rs) -/

/-- Embeds the merge step of `ConfigBuilder::maybe_combine_arguments`
(src/config/src/lib.rs lines 239-261): if the file contributed no
arguments, the command line is returned unchanged; otherwise the first
command-line token (the binary name) is shifted in front of the file
arguments and the remaining command-line tokens follow.  (On an empty
command line with non-empty file arguments the Rust `cliargs.remove(0)`
would panic; the spec makes a non-empty command line a caller
precondition, and every theorem below assumes it.) -/
def combine_arguments (commandline : List String)
    (args_from_file : List String) : List String :=
  if args_from_file.isEmpty then commandline
  else
    match commandline with
    | [] => args_from_file
    | c0 :: rest => c0 :: (args_from_file ++ rest)

/-- Embeds `ConfigBuilder::maybe_combine_arguments` (src/config/src/lib.rs
lines 223-262): parse the raw command line first; if `--no-config` was
passed, bypass the config file, otherwise load tokens from the file named
by the environment variable; then merge.  A parse error of the raw command
line is propagated (the engine reports it and no combined line is
produced). -/
def maybe_combine_arguments (app_matcher : App)
    (env : String → Option String)
    (fs : String → Except String (List (List Nat)))
    (decode : List Nat → Except String String)
    (commandline : List String) (config_file_env : String) :
    Except MatchError (List String) :=
  match get_matches_from app_matcher commandline with
  | Except.error e => Except.error e
  | Except.ok command_line_args =>
    Except.ok (combine_arguments commandline
      (if is_present app_matcher command_line_args "no-config" then []
       else (args env fs decode config_file_env).1))

/-- Embeds `ConfigBuilder::build` (src/config/src/lib.rs lines 146-186) up
to the `HashMap` handed to `Configurable::parse_values`: create the
matcher from the configuration description, combine command line and file
arguments, parse the combined line, and collect `values_of` for every
option of the description.  A parse error is propagated and no value map
is produced. -/
def build (config : Configuration)
    (env : String → Option String)
    (fs : String → Except String (List (List Nat)))
    (decode : List Nat → Except String String)
    (commandline : List String) (config_file_env : String) :
    Except MatchError (List (ConfigOption × Option (List String))) :=
  match maybe_combine_arguments (create_matcher config) env fs decode
      commandline config_file_env with
  | Except.error e => Except.error e
  | Except.ok combined =>
    match get_matches_from (create_matcher config) combined with
    | Except.error e => Except.error e
    | Except.ok occs =>
      Except.ok (config.options.map (fun o =>
        (o, values_of (create_matcher config) occs o.name)))

/-- Look up the resolved tri-state value of option `O` in the value map
produced by `build`, keyed by name equality exactly as the Rust `HashMap`
keyed by `ConfigOption` is (equality and hash of `ConfigOption` compare
only `name`, src/config/src/lib.rs lines 96-112). -/
def lookupResolved (result : List (ConfigOption × Option (List String)))
    (O : ConfigOption) : Option ResolvedValue :=
  (result.find? (fun p => p.1.name == O.name)).map (fun p => toResolved p.2)

/-! ## Token renderings and wellformedness of occurrence lists

To state token-level properties ("option O appears with a value in the
tokens") we render a structured occurrence list into its token form: a
value-taking occurrence renders as `--name value`, a flag occurrence as
`--name`. -/

/-- The tokens of one occurrence. -/
def renderOcc (p : String × Option String) : List String :=
  match p.2 with
  | some v => [dashName p.1, v]
  | none => [dashName p.1]

/-- The tokens of an occurrence list, in order. -/
def renderOccs : List (String × Option String) → List String
  | [] => []
  | p :: rest => renderOcc p ++ renderOccs rest

/-- An occurrence is well formed for a matcher configuration when its name
resolves to a slot and it carries a value exactly when that slot takes
one. -/
def wfOcc (as : List Arg) (p : String × Option String) : Bool :=
  match findArgLong as p.1 with
  | some a => a.takes_value == p.2.isSome
  | none => false

/-- All occurrences of a list are well formed. -/
def wfOccs (as : List Arg) (occs : List (String × Option String)) : Bool :=
  occs.all (wfOcc as)

/-! ## Concrete fixtures (used by the witness theorems)

These mirror the test configuration of src/config/src/lib.rs (lines
283-392): a value-taking option, a repeatable option, a switch, plus the
reserved `no-config` switch. -/

/-- A non-repeatable value-taking option. -/
def testParamOpt : ConfigOption :=
  { name := "testparam", default := none, required := false,
    takes_argument := true, help := "h", documentation := "d", list := false }

/-- A repeatable value-taking option. -/
def testMultOpt : ConfigOption :=
  { name := "testmultiple", default := none, required := false,
    takes_argument := true, help := "h", documentation := "d", list := true }

/-- A present/missing switch. -/
def testSwitchOpt : ConfigOption :=
  { name := "testswitch", default := none, required := false,
    takes_argument := false, help := "h", documentation := "d", list := false }

/-- The reserved switch that disables config-file loading. -/
def noConfigOpt : ConfigOption :=
  { name := "no-config", default := none, required := false,
    takes_argument := false, help := "h", documentation := "d", list := false }

/-- A test configuration holding the four options above. -/
def testConfig : Configuration :=
  { name := "Test Tool", version := "0.1", about := "blabla",
    options := [testParamOpt, testMultOpt, testSwitchOpt, noConfigOpt] }

/-- A test configuration without the reserved `no-config` option. -/
def testConfigNoBypass : Configuration :=
  { name := "Test Tool", version := "0.1", about := "blabla",
    options := [testParamOpt, testMultOpt, testSwitchOpt] }

/-- A test environment snapshot: several variables naming config-file
paths, one variable set to the empty string, everything else unset. -/
def testEnv : String → Option String := fun v =>
  if v == "CFG" then some "/cfg"
  else if v == "CFG2" then some "/cfg2"
  else if v == "BAD" then some "/bad"
  else if v == "MULTI" then some "/multi"
  else if v == "EMPTY" then some ""
  else none

/-- A test filesystem: `/cfg` holds `--testparam` and `fromfile` lines
(the bytes of "--testparam\n" and "fromfile\n"), `/cfg2` holds a dangling
`--testparam` line, `/multi` holds two occurrences of `--testmultiple`,
everything else fails to open. -/
def testFs : String → Except String (List (List Nat)) := fun p =>
  if p == "/cfg" then
    Except.ok [[45, 45, 116, 101, 115, 116, 112, 97, 114, 97, 109, 10],
      [102, 114, 111, 109, 102, 105, 108, 101, 10]]
  else if p == "/cfg2" then
    Except.ok [[45, 45, 116, 101, 115, 116, 112, 97, 114, 97, 109, 10]]
  else if p == "/multi" then
    Except.ok [[45, 45, 116, 101, 115, 116, 109, 117, 108, 116, 105, 112, 108, 101, 10],
      [49, 48, 10],
      [45, 45, 116, 101, 115, 116, 109, 117, 108, 116, 105, 112, 108, 101, 10],
      [50, 48, 10]]
  else Except.error "No such file or directory (os error 2)"

/-- A test decoder: every byte line decodes (as on Unix, where any byte
sequence is valid `OsStr` text). -/
def decodeAscii : List Nat → Except String String := fun l =>
  Except.ok (String.mk (l.map Char.ofNat))

/-- A test decoder that rejects lines holding byte 255 (as the Windows
`to_os_str` rejects non-UTF-8 lines), used to exercise per-line decode
errors. -/
def decodeStrict : List Nat → Except String String := fun l =>
  if l.contains 255 then Except.error "invalid UTF-8" else decodeAscii l

/-- The token one line contributes, following the spec's words (spec
section 4.2): trim the line at both boundaries; an empty-after-trim line
or a line whose first character is `#` produces no token; any other line
produces exactly one token — the decoding of the full trimmed line, never
split into words. -/
def lineTokenSpec (decode : List Nat → Except String String)
    (l : List Nat) : Option String :=
  let t := trimBytes l
  if t.isEmpty || t.head? == some 35 then none
  else
    match decode t with
    | Except.ok s => some s
    | Except.error _ => none

/-- The per-line error one line contributes, following the spec's words
(spec section 4.2): a non-comment line that cannot be decoded as argument
text is recorded with its line number and cause. -/
def lineErrSpec (decode : List Nat → Except String String)
    (idx : Nat) (l : List Nat) : Option LineError :=
  let t := trimBytes l
  if t.isEmpty || t.head? == some 35 then none
  else
    match decode t with
    | Except.ok _ => none
    | Except.error c => some { lineNumber := idx, cause := c }

/-! ## Theorems -/

/-- Stripping the leading dashes of a rendered long flag yields the option
name back. -/
theorem stripDashes_dashName (nm : String) : stripDashes (dashName nm) = some nm := by
  cases nm with
  | mk data => rfl

/-- Unfolding lemma for `wfOccs` on a cons. -/
theorem wfOccs_cons (as : List Arg) (p : String × Option String)
    (rest : List (String × Option String)) :
    wfOccs as (p :: rest) = (wfOcc as p && wfOccs as rest) := by
  simp [wfOccs]

/-- Parsing the rendering of a well-formed occurrence list followed by
further tokens yields those occurrences followed by whatever the further
tokens parse to. -/
theorem matchTokens_renderOccs_append (as : List Arg)
    (occs : List (String × Option String)) (ts : List String)
    (hwf : wfOccs as occs = true) :
    matchTokens as (renderOccs occs ++ ts) =
      (matchTokens as ts).map (fun rest => occs ++ rest) := by
  induction occs with
  | nil =>
    rcases h : matchTokens as ts with e | v <;> simp [renderOccs, h, Except.map]
  | cons p rest ih =>
    obtain ⟨nm, val⟩ := p
    rw [wfOccs_cons, Bool.and_eq_true] at hwf
    rcases hwf with ⟨hp, hr⟩
    rcases hf : findArgLong as nm with _ | a
    · simp [wfOcc, hf] at hp
    · simp only [wfOcc, hf, beq_iff_eq] at hp
      rcases val with _ | v
      · simp only [Option.isSome_none] at hp
        simp only [renderOccs, renderOcc, List.cons_append, List.nil_append]
        simp only [matchTokens, stripDashes_dashName, hf, hp, Bool.false_eq_true, if_false]
        rw [ih hr]
        rcases h : matchTokens as ts with e | w <;> simp [h, Except.map]
      · simp only [Option.isSome_some] at hp
        simp only [renderOccs, renderOcc, List.cons_append, List.nil_append]
        simp only [matchTokens, stripDashes_dashName, hf, hp, if_true]
        rw [ih hr]
        rcases h : matchTokens as ts with e | w <;> simp [h, Except.map]

/-- Parsing the rendering of a well-formed occurrence list yields exactly
those occurrences. -/
theorem matchTokens_renderOccs (as : List Arg)
    (occs : List (String × Option String)) (hwf : wfOccs as occs = true) :
    matchTokens as (renderOccs occs) = Except.ok occs := by
  have h := matchTokens_renderOccs_append as occs [] hwf
  rw [List.append_nil] at h
  rw [h]
  simp [matchTokens, Except.map]

/-- Every occurrence list the matcher produces is well formed: each
occurrence's name resolves to a slot and carries a value exactly when the
slot takes one. -/
theorem matchTokens_ok_wf (as : List Arg) (ts : List String) :
    ∀ occs, matchTokens as ts = Except.ok occs → wfOccs as occs = true := by
  induction ts using matchTokens.induct as with
  | case1 =>
    intro occs h
    simp only [matchTokens, Except.ok.injEq] at h
    subst h
    rfl
  | case2 t rest hs =>
    intro occs h
    simp only [matchTokens, hs] at h
    exact Except.noConfusion h
  | case3 t rest nm hs hf =>
    intro occs h
    simp only [matchTokens, hs, hf] at h
    exact Except.noConfusion h
  | case4 t nm hs a hf htv =>
    intro occs h
    simp only [matchTokens, hs, hf, htv, if_true] at h
    exact Except.noConfusion h
  | case5 t nm hs a hf htv v rest2 ih =>
    intro occs h
    simp only [matchTokens, hs, hf, htv, if_true] at h
    rcases hmt : matchTokens as rest2 with e | occs2
    · rw [hmt] at h; cases h
    · rw [hmt] at h
      simp only [Except.map, Except.ok.injEq] at h
      subst h
      rw [wfOccs_cons, Bool.and_eq_true]
      exact ⟨by simp [wfOcc, hf, htv], ih occs2 hmt⟩
  | case6 t rest nm hs a hf htv ih =>
    intro occs h
    simp only [matchTokens, hs, hf, htv, Bool.false_eq_true, if_false] at h
    rcases hmt : matchTokens as rest with e | occs2
    · rw [hmt] at h; cases h
    · rw [hmt] at h
      simp only [Except.map, Except.ok.injEq] at h
      subst h
      rw [wfOccs_cons, Bool.and_eq_true]
      refine ⟨by simp [wfOcc, hf, Bool.eq_false_iff.mpr htv], ih occs2 hmt⟩

/-- Looking up a long flag in the matcher built by `create_matcher` is
looking up the option of that name in the configuration. -/
theorem findArgLong_create (config : Configuration) (nm : String) :
    findArgLong (create_matcher config).args nm =
      (config.options.find? (fun o => o.name == nm)).map mkArg := by
  simp only [findArgLong, create_matcher, List.find?_map]
  rfl

/-- In an option list without duplicate names, the first option found by
name is the member itself. -/
theorem find?_name_of_nodup (opts : List ConfigOption) (O : ConfigOption)
    (hnd : (opts.map (fun o => o.name)).Nodup) (hmem : O ∈ opts) :
    opts.find? (fun o => o.name == O.name) = some O := by
  induction opts with
  | nil => cases hmem
  | cons x rest ih =>
    rw [List.map_cons, List.nodup_cons] at hnd
    rcases hnd with ⟨hx, hrest⟩
    rcases List.mem_cons.mp hmem with rfl | hm
    · simp [List.find?_cons_of_pos]
    · have hne : x.name ≠ O.name := by
        intro he
        exact hx (he ▸ List.mem_map_of_mem (fun o => o.name) hm)
      rw [List.find?_cons_of_neg _ (by simpa using hne)]
      exact ih hrest hm

/-- Searching the value map built over the option list by name finds the
entry of the option of that name. -/
theorem find?_pair_map (opts : List ConfigOption)
    (g : ConfigOption → Option (List String)) (nm : String) :
    (opts.map (fun o => (o, g o))).find? (fun p => p.1.name == nm) =
      (opts.find? (fun o => o.name == nm)).map (fun o => (o, g o)) := by
  simp only [List.find?_map]
  rfl

/-- For a value-taking option, every well-formed occurrence carries a
value, so there are exactly as many values as occurrences. -/
theorem valsOf_length (as : List Arg) (nm : String) (a : Arg)
    (hf : findArgLong as nm = some a) (htv : a.takes_value = true) :
    ∀ occs, wfOccs as occs = true →
      (valsOf occs nm).length = (occurrencesOf occs nm).length := by
  intro occs
  induction occs with
  | nil => intro _; rfl
  | cons p rest ih =>
    intro hwf
    obtain ⟨pn, pv⟩ := p
    rw [wfOccs_cons, Bool.and_eq_true] at hwf
    rcases hwf with ⟨hp, hr⟩
    by_cases hn : pn = nm
    · subst hn
      rw [wfOcc, hf, beq_iff_eq] at hp
      rcases pv with _ | v
      · rw [htv] at hp; simp at hp
      · simp only [valsOf, occurrencesOf, List.filter_cons] at ih ⊢
        simp only [beq_self_eq_true, if_true, List.filterMap_cons]
        simp only [List.length_cons]
        have := ih hr
        simp only [valsOf, occurrencesOf] at this
        simp [this]
    · simp only [valsOf, occurrencesOf, List.filter_cons]
      have : (pn == nm) = false := by simpa using hn
      rw [this]
      simp only [Bool.false_eq_true, if_false]
      have := ih hr
      simpa [valsOf, occurrencesOf] using this

/-- Only the empty occurrence list renders to no tokens. -/
theorem renderOccs_eq_nil (occs : List (String × Option String))
    (h : renderOccs occs = []) : occs = [] := by
  cases occs with
  | nil => rfl
  | cons p rest =>
    obtain ⟨nm, _ | v⟩ := p <;> simp [renderOccs, renderOcc] at h

/-- Merging with no file arguments returns the command line unchanged. -/
theorem combine_arguments_nil (cl : List String) : combine_arguments cl [] = cl := by
  simp [combine_arguments]

/-- Looking up an option in the value map `build` produces yields the
tri-state view of the value computed for it. -/
theorem lookupResolved_map (opts : List ConfigOption)
    (g : ConfigOption → Option (List String)) (O : ConfigOption)
    (hfindO : opts.find? (fun o => o.name == O.name) = some O) :
    lookupResolved (opts.map (fun o => (o, g o))) O = some (toResolved (g O)) := by
  rw [lookupResolved, find?_pair_map, hfindO]
  rfl

/-- `values_of` on the matcher built from the configuration evaluates
`argValues` on the option's own slot. -/
theorem values_of_eq (config : Configuration) (O : ConfigOption)
    (occs : List (String × Option String))
    (hfindO : config.options.find? (fun o => o.name == O.name) = some O) :
    values_of (create_matcher config) occs O.name = argValues (mkArg O) occs := by
  simp [values_of, findArgLong_create, hfindO]

/-- Central pipeline lemma: when `build` succeeds on a command line
`prog :: renderOccs invocOccs` while the file loader contributes
`renderOccs fileOccs`, the produced value map is computed either from the
invocation occurrences alone (when the `no-config` bypass flag was
present on the first pass) or from the file occurrences followed by the
invocation occurrences (otherwise). -/
theorem build_result (config : Configuration)
    (env : String → Option String)
    (fs : String → Except String (List (List Nat)))
    (decode : List Nat → Except String String)
    (prog cfgEnv : String)
    (fileOccs invocOccs : List (String × Option String))
    (result : List (ConfigOption × Option (List String)))
    (hwf_f : wfOccs (create_matcher config).args fileOccs = true)
    (hwf_i : wfOccs (create_matcher config).args invocOccs = true)
    (hargs : (args env fs decode cfgEnv).1 = renderOccs fileOccs)
    (hbuild : build config env fs decode (prog :: renderOccs invocOccs) cfgEnv =
      Except.ok result) :
    (is_present (create_matcher config) invocOccs "no-config" = true ∧
      result = config.options.map (fun o =>
        (o, values_of (create_matcher config) invocOccs o.name))) ∨
    (is_present (create_matcher config) invocOccs "no-config" = false ∧
      result = config.options.map (fun o =>
        (o, values_of (create_matcher config) (fileOccs ++ invocOccs) o.name))) := by
  have hm1 : matchTokens (create_matcher config).args (renderOccs invocOccs) =
      Except.ok invocOccs := matchTokens_renderOccs _ _ hwf_i
  simp only [build, maybe_combine_arguments, get_matches_from, List.tail_cons, hm1] at hbuild
  rcases hcr : checkRequired (create_matcher config).args invocOccs with e | u
  · simp only [hcr] at hbuild
    exact Except.noConfusion hbuild
  · simp only [hcr] at hbuild
    rcases hb : is_present (create_matcher config) invocOccs "no-config" with _ | _
    · -- no bypass: the file tokens are merged in
      rw [hb] at hbuild
      simp only [Bool.false_eq_true, if_false, hargs] at hbuild
      right
      refine ⟨rfl, ?_⟩
      rcases hie : (renderOccs fileOccs).isEmpty with _ | _
      · -- file produced tokens
        simp only [combine_arguments, hie, Bool.false_eq_true, if_false] at hbuild
        have hmt2 : matchTokens (create_matcher config).args
            (renderOccs fileOccs ++ renderOccs invocOccs) =
            Except.ok (fileOccs ++ invocOccs) := by
          rw [matchTokens_renderOccs_append _ _ _ hwf_f, hm1]
          rfl
        simp only [List.tail_cons, hmt2] at hbuild
        rcases hcr2 : checkRequired (create_matcher config).args
            (fileOccs ++ invocOccs) with e | u2
        · simp only [hcr2] at hbuild
          exact Except.noConfusion hbuild
        · simp only [hcr2, Except.ok.injEq] at hbuild
          exact hbuild.symm
      · -- file produced no tokens
        have hnil : renderOccs fileOccs = [] := List.isEmpty_iff.mp hie
        have hfnil : fileOccs = [] := renderOccs_eq_nil _ hnil
        subst hfnil
        simp only [hnil, combine_arguments, List.isEmpty_nil, if_true,
          List.tail_cons, hm1, hcr, Except.ok.injEq, List.nil_append] at hbuild
        exact hbuild.symm
    · -- bypass: --no-config was present on the command line
      rw [hb] at hbuild
      simp only [if_true, combine_arguments, List.isEmpty_nil, if_true,
        List.tail_cons, hm1, hcr, Except.ok.injEq] at hbuild
      left
      exact ⟨rfl, hbuild.symm⟩

/-- C1, confirmed.  Override law: for every schema and every
non-repeatable, value-taking option `O`, if `O` appears with a value both
in the file-derived tokens and in the invocation tokens, the final
resolved entry for `O` is `Values [v]` where `v` is the invocation's
value — never the file's value. -/
theorem override_law (config : Configuration)
    (env : String → Option String)
    (fs : String → Except String (List (List Nat)))
    (decode : List Nat → Except String String)
    (prog cfgEnv fv v : String) (O : ConfigOption)
    (fileOccs invocOccs : List (String × Option String))
    (result : List (ConfigOption × Option (List String)))
    (hfindO : config.options.find? (fun o => o.name == O.name) = some O)
    (hlist : O.list = false) (htakes : O.takes_argument = true)
    (hwf_f : wfOccs (create_matcher config).args fileOccs = true)
    (hwf_i : wfOccs (create_matcher config).args invocOccs = true)
    (hfile : (O.name, some fv) ∈ fileOccs)
    (hinv : occurrencesOf invocOccs O.name = [(O.name, some v)])
    (hargs : (args env fs decode cfgEnv).1 = renderOccs fileOccs)
    (hbuild : build config env fs decode (prog :: renderOccs invocOccs) cfgEnv =
      Except.ok result) :
    lookupResolved result O = some (ResolvedValue.Values [v]) := by
  rcases build_result config env fs decode prog cfgEnv fileOccs invocOccs result
      hwf_f hwf_i hargs hbuild with ⟨hb, hres⟩ | ⟨hb, hres⟩
  · subst hres
    rw [lookupResolved_map _ _ _ hfindO, values_of_eq config O _ hfindO]
    simp [argValues, mkArg, hinv, htakes, hlist, toResolved]
  · subst hres
    rw [lookupResolved_map _ _ _ hfindO, values_of_eq config O _ hfindO]
    have hocc : occurrencesOf (fileOccs ++ invocOccs) O.name =
        occurrencesOf fileOccs O.name ++ [(O.name, some v)] := by
      rw [← hinv]
      simp [occurrencesOf, List.filter_append]
    simp [argValues, mkArg, hocc, htakes, hlist, List.filterMap_append,
      List.getLast?_concat, toResolved]

/-- Concrete witness for C1: `--testparam fromfile` in the file,
`--testparam param1` on the command line; the resolved value is
`Values [param1]`. -/
theorem override_law_witness :
    lookupResolved [(testParamOpt, some ["param1"]), (testMultOpt, none),
        (testSwitchOpt, none), (noConfigOpt, none)] testParamOpt =
      some (ResolvedValue.Values ["param1"]) :=
  override_law testConfig testEnv testFs decodeAscii "bin" "CFG" "fromfile" "param1"
    testParamOpt [("testparam", some "fromfile")] [("testparam", some "param1")]
    [(testParamOpt, some ["param1"]), (testMultOpt, none),
      (testSwitchOpt, none), (noConfigOpt, none)]
    (by decide) (by decide) (by decide) (by decide) (by decide) (by decide)
    (by decide) (by decide) (by decide)

/-- C4, confirmed.  Repeatable accumulation: a repeatable (`list = true`)
option `O` appearing `m` times in the file-derived tokens and `n` times in
the invocation tokens (with `m + n` at least one and no bypass flag)
resolves to a `Values` list holding the `m` file values followed by the
`n` invocation values, each group in original order; the two length
equations pin the list's length to `m + n`. -/
theorem repeatable_accumulation (config : Configuration)
    (env : String → Option String)
    (fs : String → Except String (List (List Nat)))
    (decode : List Nat → Except String String)
    (prog cfgEnv : String) (O : ConfigOption)
    (fileOccs invocOccs : List (String × Option String))
    (result : List (ConfigOption × Option (List String)))
    (hfindO : config.options.find? (fun o => o.name == O.name) = some O)
    (hlist : O.list = true) (htakes : O.takes_argument = true)
    (hwf_f : wfOccs (create_matcher config).args fileOccs = true)
    (hwf_i : wfOccs (create_matcher config).args invocOccs = true)
    (hbyp : is_present (create_matcher config) invocOccs "no-config" = false)
    (hne : occurrencesOf fileOccs O.name ≠ [] ∨ occurrencesOf invocOccs O.name ≠ [])
    (hargs : (args env fs decode cfgEnv).1 = renderOccs fileOccs)
    (hbuild : build config env fs decode (prog :: renderOccs invocOccs) cfgEnv =
      Except.ok result) :
    lookupResolved result O =
      some (ResolvedValue.Values (valsOf fileOccs O.name ++ valsOf invocOccs O.name)) ∧
    (valsOf fileOccs O.name).length = (occurrencesOf fileOccs O.name).length ∧
    (valsOf invocOccs O.name).length = (occurrencesOf invocOccs O.name).length := by
  have hfarg : findArgLong (create_matcher config).args O.name = some (mkArg O) := by
    rw [findArgLong_create, hfindO]
    rfl
  have htv : (mkArg O).takes_value = true := htakes
  have hlenF := valsOf_length _ _ _ hfarg htv fileOccs hwf_f
  have hlenI := valsOf_length _ _ _ hfarg htv invocOccs hwf_i
  rcases build_result config env fs decode prog cfgEnv fileOccs invocOccs result
      hwf_f hwf_i hargs hbuild with ⟨hb, hres⟩ | ⟨hb, hres⟩
  · rw [hb] at hbyp
    cases hbyp
  · subst hres
    refine ⟨?_, hlenF, hlenI⟩
    rw [lookupResolved_map _ _ _ hfindO, values_of_eq config O _ hfindO]
    have hocc : occurrencesOf (fileOccs ++ invocOccs) O.name =
        occurrencesOf fileOccs O.name ++ occurrencesOf invocOccs O.name := by
      simp [occurrencesOf, List.filter_append]
    have hmine_ne : occurrencesOf fileOccs O.name ++ occurrencesOf invocOccs O.name ≠ [] := by
      intro hc
      rcases List.append_eq_nil.mp hc with ⟨h1, h2⟩
      rcases hne with hne | hne
      · exact hne h1
      · exact hne h2
    have hfm : (occurrencesOf fileOccs O.name ++
          occurrencesOf invocOccs O.name).filterMap Prod.snd =
        valsOf fileOccs O.name ++ valsOf invocOccs O.name := by
      simp [valsOf, List.filterMap_append]
    have hlen_pos : 0 < (valsOf fileOccs O.name ++ valsOf invocOccs O.name).length := by
      rw [List.length_append, hlenF, hlenI]
      rcases hne with hne | hne
      · have := List.length_pos.mpr hne
        omega
      · have := List.length_pos.mpr hne
        omega
    rcases hv : valsOf fileOccs O.name ++ valsOf invocOccs O.name with _ | ⟨w, ws⟩
    · rw [hv] at hlen_pos
      simp at hlen_pos
    · simp only [argValues, mkArg, hocc, htakes, hlist, hfm, hv]
      simp [List.isEmpty_iff, hmine_ne, toResolved]

/-- Concrete witness for C4: `--testmultiple 10` and `--testmultiple 20`
in the file, `--testmultiple 30` on the command line; the resolved value
is `Values [10, 20, 30]`. -/
theorem repeatable_accumulation_witness :
    lookupResolved [(testParamOpt, none), (testMultOpt, some ["10", "20", "30"]),
        (testSwitchOpt, none), (noConfigOpt, none)] testMultOpt =
      some (ResolvedValue.Values (valsOf [("testmultiple", some "10"), ("testmultiple", some "20")]
          "testmultiple" ++ valsOf [("testmultiple", some "30")] "testmultiple")) ∧
    (valsOf [("testmultiple", some "10"), ("testmultiple", some "20")] "testmultiple").length =
      (occurrencesOf [("testmultiple", some "10"), ("testmultiple", some "20")] "testmultiple").length ∧
    (valsOf [("testmultiple", some "30")] "testmultiple").length =
      (occurrencesOf [("testmultiple", some "30")] "testmultiple").length :=
  repeatable_accumulation testConfig testEnv testFs decodeAscii "bin" "MULTI"
    testMultOpt [("testmultiple", some "10"), ("testmultiple", some "20")]
    [("testmultiple", some "30")]
    [(testParamOpt, none), (testMultOpt, some ["10", "20", "30"]),
      (testSwitchOpt, none), (noConfigOpt, none)]
    (by decide) (by decide) (by decide) (by decide) (by decide) (by decide)
    (by decide) (by decide) (by decide)

/-- C2, confirmed.  Merge formula: for every non-empty invocation token
list, the token merger returns the invocation tokens unchanged when the
file tokens are empty, and otherwise returns the first invocation token
followed by the file tokens followed by the remaining invocation tokens,
preserving the program-name token in first position. -/
theorem merge_formula (inv fileToks : List String) (hne : inv ≠ []) :
    (fileToks = [] → combine_arguments inv fileToks = inv) ∧
    (fileToks ≠ [] → combine_arguments inv fileToks =
      inv.take 1 ++ fileToks ++ inv.drop 1) := by
  constructor
  · intro h
    subst h
    exact combine_arguments_nil inv
  · intro h
    cases inv with
    | nil => exact absurd rfl hne
    | cons c0 rest =>
      simp [combine_arguments, List.isEmpty_iff, h]

/-- Concrete witness for C2 at a two-token command line and a one-token
file list. -/
theorem merge_formula_witness :
    ((["--y"] : List String) = [] →
      combine_arguments ["bin", "--x"] ["--y"] = ["bin", "--x"]) ∧
    ((["--y"] : List String) ≠ [] →
      combine_arguments ["bin", "--x"] ["--y"] =
        ["bin", "--x"].take 1 ++ ["--y"] ++ ["bin", "--x"].drop 1) :=
  merge_formula ["bin", "--x"] ["--y"] (by decide)

/-- C3, confirmed.  Bypass law: whenever the first-pass match of the
invocation tokens reports the reserved `no-config` flag present, the
resolution result is identical to the one obtained with no config file at
all (environment with every variable unset); the file's contents — even
conflicting or malformed lines — have zero effect. -/
theorem bypass_law (config : Configuration)
    (env : String → Option String)
    (fs : String → Except String (List (List Nat)))
    (decode : List Nat → Except String String)
    (inv : List String) (cfgEnv : String)
    (occs0 : List (String × Option String))
    (hmatch1 : get_matches_from (create_matcher config) inv = Except.ok occs0)
    (hpres : is_present (create_matcher config) occs0 "no-config" = true) :
    build config env fs decode inv cfgEnv =
      build config (fun _ => none) fs decode inv cfgEnv := by
  have hmc : maybe_combine_arguments (create_matcher config) env fs decode inv cfgEnv =
      maybe_combine_arguments (create_matcher config) (fun _ => none) fs decode
        inv cfgEnv := by
    simp only [maybe_combine_arguments, hmatch1, hpres, if_true]
  simp only [build, hmc]

/-- Concrete witness for C3: with `--no-config` on the command line, the
result equals the one computed with no environment variable set, although
the config file holds a conflicting `--testparam` line. -/
theorem bypass_law_witness :
    build testConfig testEnv testFs decodeAscii
        ["bin", "--no-config", "--testparam", "cli"] "CFG" =
      build testConfig (fun _ => none) testFs decodeAscii
        ["bin", "--no-config", "--testparam", "cli"] "CFG" :=
  bypass_law testConfig testEnv testFs decodeAscii
    ["bin", "--no-config", "--testparam", "cli"] "CFG"
    [("no-config", none), ("testparam", some "cli")] (by decide) (by decide)

/-- C5, confirmed.  Error propagation: whenever the final match over the
combined token list reports a structured parse error (missing required
option, missing value, unknown flag), `build` returns exactly that error
and produces no value map — extraction never runs. -/
theorem error_propagation (config : Configuration)
    (env : String → Option String)
    (fs : String → Except String (List (List Nat)))
    (decode : List Nat → Except String String)
    (cl : List String) (cfgEnv : String) (combined : List String) (e : MatchError)
    (hcomb : maybe_combine_arguments (create_matcher config) env fs decode cl cfgEnv =
      Except.ok combined)
    (herr : get_matches_from (create_matcher config) combined = Except.error e) :
    build config env fs decode cl cfgEnv = Except.error e := by
  simp only [build, hcomb, herr]

/-- Concrete witness for C5: the config file ends with a dangling
`--testparam`, so the final match reports a missing value and `build`
returns that error. -/
theorem error_propagation_witness :
    build testConfig testEnv testFs decodeAscii ["bin"] "CFG2" =
      Except.error (MatchError.missingValue "testparam") :=
  error_propagation testConfig testEnv testFs decodeAscii ["bin"] "CFG2"
    ["bin", "--testparam"] (MatchError.missingValue "testparam")
    (by decide) (by decide)

/-- Every occurrence list a successful `get_matches_from` returns is well
formed. -/
theorem get_matches_from_wf (app : App) (tokens : List String)
    (occs : List (String × Option String))
    (h : get_matches_from app tokens = Except.ok occs) :
    wfOccs app.args occs = true := by
  rcases hmt : matchTokens app.args tokens.tail with e | occs2
  · simp only [get_matches_from, hmt] at h
    exact Except.noConfusion h
  · simp only [get_matches_from, hmt] at h
    rcases hcr : checkRequired app.args occs2 with e | u
    · simp only [hcr] at h
      exact Except.noConfusion h
    · simp only [hcr, Except.ok.injEq] at h
      subst h
      exact matchTokens_ok_wf _ _ _ hmt

/-- C7, confirmed.  No-file-configured case: when the named environment
variable is unset or set to the empty string, the file token loader
returns no tokens and reports no error, and resolution yields the same
result as resolving with the invocation tokens alone (environment with
every variable unset). -/
theorem no_file_configured (config : Configuration)
    (env : String → Option String)
    (fs : String → Except String (List (List Nat)))
    (decode : List Nat → Except String String)
    (inv : List String) (cfgEnv : String)
    (henv : env cfgEnv = none ∨ env cfgEnv = some "") :
    args env fs decode cfgEnv = ([], []) ∧
    build config env fs decode inv cfgEnv =
      build config (fun _ => none) fs decode inv cfgEnv := by
  have hargs0 : args env fs decode cfgEnv = ([], []) := by
    rcases henv with h | h
    · simp [args, h]
    · simp [args, h, show ("" : String).isEmpty = true from by decide]
  refine ⟨hargs0, ?_⟩
  have h1 : (args env fs decode cfgEnv).1 = ([] : List String) := by rw [hargs0]
  have h2 : (args (fun _ => none) fs decode cfgEnv).1 = ([] : List String) := by
    simp [args]
  have hmc : maybe_combine_arguments (create_matcher config) env fs decode inv cfgEnv =
      maybe_combine_arguments (create_matcher config) (fun _ => none) fs decode
        inv cfgEnv := by
    simp only [maybe_combine_arguments, h1, h2]
  simp only [build, hmc]

/-- Concrete witness for C7 at a variable set to the empty string. -/
theorem no_file_configured_witness :
    args testEnv testFs decodeAscii "EMPTY" = ([], []) ∧
    build testConfig testEnv testFs decodeAscii ["bin", "--testparam", "x"] "EMPTY" =
      build testConfig (fun _ => none) testFs decodeAscii
        ["bin", "--testparam", "x"] "EMPTY" :=
  no_file_configured testConfig testEnv testFs decodeAscii
    ["bin", "--testparam", "x"] "EMPTY" (Or.inr (by decide))

/-- C9, confirmed.  File-access failure: when the variable names a path
that cannot be opened, the load operation returns no tokens and surfaces
the descriptive error `path: cause`, and resolution proceeds exactly as
if the file-token list were empty (same result as with the variable
unset). -/
theorem file_access_failure (config : Configuration)
    (env : String → Option String)
    (fs : String → Except String (List (List Nat)))
    (decode : List Nat → Except String String)
    (inv : List String) (cfgEnv p msg : String)
    (henv : env cfgEnv = some p) (hp : p.isEmpty = false)
    (hfs : fs p = Except.error msg) :
    args env fs decode cfgEnv = ([], [p ++ ": " ++ msg]) ∧
    build config env fs decode inv cfgEnv =
      build config (fun _ => none) fs decode inv cfgEnv := by
  have hargs0 : args env fs decode cfgEnv = ([], [p ++ ": " ++ msg]) := by
    simp [args, henv, hp, parse, hfs]
  refine ⟨hargs0, ?_⟩
  have h1 : (args env fs decode cfgEnv).1 = ([] : List String) := by rw [hargs0]
  have h2 : (args (fun _ => none) fs decode cfgEnv).1 = ([] : List String) := by
    simp [args]
  have hmc : maybe_combine_arguments (create_matcher config) env fs decode inv cfgEnv =
      maybe_combine_arguments (create_matcher config) (fun _ => none) fs decode
        inv cfgEnv := by
    simp only [maybe_combine_arguments, h1, h2]
  simp only [build, hmc]

/-- Concrete witness for C9 at a path that fails to open. -/
theorem file_access_failure_witness :
    args testEnv testFs decodeAscii "BAD" =
      ([], ["/bad" ++ ": " ++ "No such file or directory (os error 2)"]) ∧
    build testConfig testEnv testFs decodeAscii ["bin"] "BAD" =
      build testConfig (fun _ => none) testFs decodeAscii ["bin"] "BAD" :=
  file_access_failure testConfig testEnv testFs decodeAscii ["bin"] "BAD"
    "/bad" "No such file or directory (os error 2)"
    (by decide) (by decide) (by decide)

/-- C10, confirmed.  The library never declares the `no-config` option
itself: `create_matcher` adds only the schema's own options (first
conjunct, definitional), so for every schema without an option of exactly
that name the bypass flag is never reported present on a successful first
pass and file loading is never skipped via the flag — the merger is handed
the loader's tokens. -/
theorem no_config_not_declared (config : Configuration)
    (env : String → Option String)
    (fs : String → Except String (List (List Nat)))
    (decode : List Nat → Except String String)
    (inv : List String) (cfgEnv : String)
    (occs : List (String × Option String))
    (habs : ∀ o ∈ config.options, o.name ≠ "no-config")
    (hmatch : get_matches_from (create_matcher config) inv = Except.ok occs) :
    (create_matcher config).args = config.options.map mkArg ∧
    is_present (create_matcher config) occs "no-config" = false ∧
    maybe_combine_arguments (create_matcher config) env fs decode inv cfgEnv =
      Except.ok (combine_arguments inv (args env fs decode cfgEnv).1) := by
  have hfind : config.options.find? (fun o => o.name == "no-config") = none := by
    rw [List.find?_eq_none]
    intro o ho
    simpa using habs o ho
  have hfarg : findArgLong (create_matcher config).args "no-config" = none := by
    rw [findArgLong_create, hfind]
    rfl
  have hwf : wfOccs (create_matcher config).args occs = true :=
    get_matches_from_wf _ _ _ hmatch
  have hocc : occurrencesOf occs "no-config" = [] := by
    rw [occurrencesOf, List.filter_eq_nil_iff]
    intro p hp
    have hw : wfOcc (create_matcher config).args p = true := by
      have hall := List.all_eq_true.mp hwf
      exact hall p hp
    intro hbeq
    have hpn : p.1 = "no-config" := by simpa using hbeq
    rw [wfOcc, hpn, hfarg] at hw
    exact Bool.noConfusion hw
  have hip : is_present (create_matcher config) occs "no-config" = false := by
    simp [is_present, hocc, hfarg]
  refine ⟨rfl, hip, ?_⟩
  simp only [maybe_combine_arguments, hmatch, hip, Bool.false_eq_true, if_false]

/-- Concrete witness for C10 on the schema without a `no-config`
option. -/
theorem no_config_not_declared_witness :
    (create_matcher testConfigNoBypass).args = testConfigNoBypass.options.map mkArg ∧
    is_present (create_matcher testConfigNoBypass) [("testswitch", none)] "no-config" = false ∧
    maybe_combine_arguments (create_matcher testConfigNoBypass) testEnv testFs decodeAscii
        ["bin", "--testswitch"] "CFG" =
      Except.ok (combine_arguments ["bin", "--testswitch"]
        (args testEnv testFs decodeAscii "CFG").1) :=
  no_config_not_declared testConfigNoBypass testEnv testFs decodeAscii
    ["bin", "--testswitch"] "CFG" [("testswitch", none)] (by decide) (by decide)

/-- C6, confirmed.  Tri-state totality: every successful resolution hands
`parse_values` a map with exactly one entry per schema option (the
explicit `map` over `config.options`); an entry is `none` exactly when
the option occurred nowhere in the final merged token stream and no
default was applied; an entry is `some []` exactly for
`takes_argument = false` options that occurred at least once; any other
entry is `some` of a non-empty value list. -/
theorem tri_state_totality (config : Configuration)
    (env : String → Option String)
    (fs : String → Except String (List (List Nat)))
    (decode : List Nat → Except String String)
    (cl : List String) (cfgEnv : String)
    (combined : List String) (occs : List (String × Option String))
    (hnodup : (config.options.map (fun o => o.name)).Nodup)
    (hcomb : maybe_combine_arguments (create_matcher config) env fs decode cl cfgEnv =
      Except.ok combined)
    (hmatch : get_matches_from (create_matcher config) combined = Except.ok occs) :
    build config env fs decode cl cfgEnv =
      Except.ok (config.options.map (fun o =>
        (o, values_of (create_matcher config) occs o.name))) ∧
    ∀ O ∈ config.options,
      (values_of (create_matcher config) occs O.name = none ↔
        (occurrencesOf occs O.name = [] ∧
          ¬(O.takes_argument = true ∧ O.default.isSome = true))) ∧
      (values_of (create_matcher config) occs O.name = some [] ↔
        (O.takes_argument = false ∧ occurrencesOf occs O.name ≠ [])) := by
  have hwf : wfOccs (create_matcher config).args occs = true :=
    get_matches_from_wf _ _ _ hmatch
  constructor
  · simp only [build, hcomb, hmatch]
  · intro O hO
    have hfindO := find?_name_of_nodup config.options O hnodup hO
    have hfarg : findArgLong (create_matcher config).args O.name = some (mkArg O) := by
      rw [findArgLong_create, hfindO]
      rfl
    rw [values_of_eq config O occs hfindO]
    rcases hocc : occurrencesOf occs O.name with _ | ⟨p, ps⟩
    · -- the option occurred nowhere in the merged stream
      constructor
      · by_cases ht : O.takes_argument = true
        · cases hd : O.default with
          | none => simp [argValues, mkArg, hocc, ht, hd]
          | some d => simp [argValues, mkArg, hocc, ht, hd]
        · have ht2 : O.takes_argument = false := by
            revert ht
            cases O.takes_argument <;> simp
          simp [argValues, mkArg, hocc, ht2]
      · by_cases ht : O.takes_argument = true
        · cases hd : O.default with
          | none => simp [argValues, mkArg, hocc, ht, hd]
          | some d => simp [argValues, mkArg, hocc, ht, hd]
        · have ht2 : O.takes_argument = false := by
            revert ht
            cases O.takes_argument <;> simp
          simp [argValues, mkArg, hocc, ht2]
    · -- the option occurred at least once
      by_cases ht : O.takes_argument = true
      · have hlen := valsOf_length _ _ _ hfarg (show (mkArg O).takes_value = true from ht)
          occs hwf
        simp only [valsOf, hocc] at hlen
        have hne2 : (p :: ps).filterMap Prod.snd ≠ [] := by
          intro hc
          rw [hc] at hlen
          simp at hlen
        constructor
        · by_cases hl : O.list = true
          · simp [argValues, mkArg, hocc, ht, hl]
          · have hl2 : O.list = false := by
              revert hl
              cases O.list <;> simp
            simp [argValues, mkArg, hocc, ht, hl2]
        · by_cases hl : O.list = true
          · simp [argValues, mkArg, hocc, ht, hl, hne2]
          · have hl2 : O.list = false := by
              revert hl
              cases O.list <;> simp
            have hgl : ((p :: ps).filterMap Prod.snd).getLast?.toList ≠ [] := by
              rcases hg : ((p :: ps).filterMap Prod.snd).getLast? with _ | x
              · rw [List.getLast?_eq_none_iff] at hg
                exact absurd hg hne2
              · simp
            have hval : argValues (mkArg O) occs =
                some (((p :: ps).filterMap Prod.snd).getLast?.toList) := by
              simp [argValues, mkArg, hocc, ht, hl2]
            rw [hval]
            simp only [Option.some.injEq]
            constructor
            · intro hc
              exact absurd hc hgl
            · rintro ⟨hf, _⟩
              rw [ht] at hf
              exact Bool.noConfusion hf
      · have ht2 : O.takes_argument = false := by
          revert ht
          cases O.takes_argument <;> simp
        constructor
        · simp [argValues, mkArg, hocc, ht2]
        · simp [argValues, mkArg, hocc, ht2]

/-- Concrete witness for C6 on the four-option test schema with only the
switch present. -/
theorem tri_state_totality_witness :
    (build testConfig testEnv testFs decodeAscii ["bin", "--testswitch"] "NOVAR" =
      Except.ok (testConfig.options.map (fun o =>
        (o, values_of (create_matcher testConfig) [("testswitch", none)] o.name)))) ∧
    ∀ O ∈ testConfig.options,
      (values_of (create_matcher testConfig) [("testswitch", none)] O.name = none ↔
        (occurrencesOf [("testswitch", none)] O.name = [] ∧
          ¬(O.takes_argument = true ∧ O.default.isSome = true))) ∧
      (values_of (create_matcher testConfig) [("testswitch", none)] O.name = some [] ↔
        (O.takes_argument = false ∧ occurrencesOf [("testswitch", none)] O.name ≠ [])) :=
  tri_state_totality testConfig testEnv testFs decodeAscii ["bin", "--testswitch"]
    "NOVAR" ["bin", "--testswitch"] [("testswitch", none)]
    (by decide) (by decide) (by decide)

/-- The loader loop equals the per-line specification, for an arbitrary
starting line number. -/
theorem parseLines_eq (decode : List Nat → Except String String)
    (lines : List (List Nat)) : ∀ n : Nat,
    parseLines decode n lines =
      (lines.filterMap (lineTokenSpec decode),
       (lines.enumFrom n).filterMap (fun p => lineErrSpec decode p.1 p.2)) := by
  induction lines with
  | nil => intro n; rfl
  | cons l rest ih =>
    intro n
    simp only [parseLines, List.filterMap_cons, List.enumFrom]
    rw [ih (n + 1)]
    by_cases hc : ((trimBytes l).isEmpty || (trimBytes l).head? == some 35) = true
    · simp [lineTokenSpec, lineErrSpec, hc]
    · rcases hd : decode (trimBytes l) with c | s
      · simp [lineTokenSpec, lineErrSpec, hc, hd]
      · simp [lineTokenSpec, lineErrSpec, hc, hd]

/-- C8, confirmed.  Per-line parse rule: the reader processes the file
line by line; each line is whitespace-trimmed at both boundaries; a line
empty after trimming or starting with `#` produces no token; every other
decodable line produces exactly one token — the decoding of the full
trimmed line, never split into words; an undecodable line is recorded as
a per-line error with its line number while later lines are still
processed. -/
theorem per_line_parse (decode : List Nat → Except String String)
    (lines : List (List Nat)) :
    parse_reader decode lines =
      (lines.filterMap (lineTokenSpec decode),
       (lines.enumFrom 1).filterMap (fun p => lineErrSpec decode p.1 p.2)) :=
  parseLines_eq decode lines 1

end StackableConfig
